import Mathlib

set_option maxHeartbeats 1000000

namespace AuraTrac

/-- The configuration fields of `Settings` that the accumulator logic reads.
Style fields (colors, font, opacity) and `input_type` are omitted: no claim
depends on them. Defaults are the dataclass defaults of the source. -/
structure Settings where
  input_code : Int := 44
  is_rapid_mode : Bool := true
  amount : Int := 1
  burst_idle_ms : Int := 0
  is_paused : Bool := false
  count : Int := 0
deriving Repr, DecidableEq

/-- Payload of a "status" notification put on `update_q` (the source formats
these as strings; the data interpolated into each string is kept). -/
inductive Status where
  | rapidPlusOne : Status
  | burstCompleted : Int → Int → Status
  | multiClickMet : Int → Status
  | burstFirstPress : Status
  | multiBurstMet : Int → Status
deriving Repr, DecidableEq

/-- A message put on `update_q` by the core. -/
inductive Msg where
  | countMsg : Int → Msg
  | statusMsg : Status → Msg
  | seqMsg : Int → Msg
  | pausedMsg : Bool → Msg
deriving Repr, DecidableEq

/-- The mutable state of `CounterCore`. Timestamps are in milliseconds and
`0` is the "unset" sentinel the source uses for `last_press_time` and
`last_scroll_time` (real timestamps from `time.time() * 1000` are positive). -/
structure CounterCore where
  settings : Settings
  count : Int
  sequence_presses : Int
  last_press_time : Int
  burst_count_tracker : Int
  last_scroll_time : Int
deriving Repr, DecidableEq

/-- `self.scroll_debounce_ms = 100`, never reassigned. -/
def scroll_debounce_ms : Int := 100

/-- The state part of `CounterCore.__init__`. -/
def init_core (s : Settings) : CounterCore :=
  { settings := s, count := s.count, sequence_presses := 0,
    last_press_time := 0, burst_count_tracker := 0, last_scroll_time := 0 }

/-- `CounterCore._update_count`. -/
def update_count (c : CounterCore) (delta : Int) : CounterCore × List Msg :=
  if c.settings.is_paused then (c, [])
  else ({ c with count := c.count + delta }, [Msg.countMsg (c.count + delta)])

/-- Step 2a of `CounterCore._handle_input`: when the idle window is enabled,
the previous timestamp is set and the gap exceeds the window, a non-empty
sequence bumps `burst_count_tracker` (emitting the "Burst Completed" status),
and `sequence_presses` resets to 0. -/
def close_idle (current_time : Int) (c : CounterCore) :
    CounterCore × List Msg :=
  if 0 < c.settings.burst_idle_ms ∧ c.last_press_time ≠ 0 ∧
      c.settings.burst_idle_ms < current_time - c.last_press_time then
    if 0 < c.sequence_presses then
      ({ c with burst_count_tracker := c.burst_count_tracker + 1,
                sequence_presses := 0 },
       [Msg.statusMsg
          (Status.burstCompleted (c.burst_count_tracker + 1) c.settings.amount)])
    else ({ c with sequence_presses := 0 }, [])
  else (c, [])

/-- Steps 2a and 2b of `CounterCore._handle_input`: the idle-gap sequence
closing, then the unconditional `sequence_presses += 1` and
`last_press_time = current_time`. -/
def sequence_step (current_time : Int) (c : CounterCore) :
    CounterCore × List Msg :=
  let p1 := close_idle current_time c
  ({ p1.1 with sequence_presses := p1.1.sequence_presses + 1,
               last_press_time := current_time }, p1.2)

/-- `CounterCore._handle_input`, with the event timestamp
(`time.time() * 1000`) passed explicitly. The Python `%` agrees with `Int`'s
`%` whenever the modulus is positive (the source raises on `amount = 0`,
which every ingestion point rules out by clamping). -/
def handle_input (current_time : Int) (c : CounterCore) :
    CounterCore × List Msg :=
  if c.settings.is_rapid_mode then
    let p1 := update_count c 1
    ({ p1.1 with last_press_time := current_time, sequence_presses := 0,
                 burst_count_tracker := 0 },
     p1.2 ++ [Msg.statusMsg Status.rapidPlusOne])
  else
    let p2 := sequence_step current_time c
    let p3 : CounterCore × List Msg :=
      if p2.1.settings.burst_idle_ms = 0 then
        if p2.1.sequence_presses % p2.1.settings.amount = 0 then
          let px := update_count p2.1 1
          (px.1, px.2 ++ [Msg.statusMsg (Status.multiClickMet p2.1.settings.amount)])
        else (p2.1, ([] : List Msg))
      else if p2.1.settings.amount = 1 then
        if p2.1.sequence_presses = 1 then
          let px := update_count p2.1 1
          (px.1, px.2 ++ [Msg.statusMsg Status.burstFirstPress])
        else (p2.1, ([] : List Msg))
      else if 1 < p2.1.settings.amount then
        if p2.1.sequence_presses = 1 ∧
            p2.1.settings.amount ≤ p2.1.burst_count_tracker then
          let px := update_count p2.1 1
          ({ px.1 with burst_count_tracker := 0 },
           px.2 ++ [Msg.statusMsg (Status.multiBurstMet p2.1.settings.amount)])
        else (p2.1, ([] : List Msg))
      else (p2.1, ([] : List Msg))
    (p3.1, p2.2 ++ p3.2 ++ [Msg.seqMsg p3.1.sequence_presses])

inductive KeyEventType where
  | keyDown : KeyEventType
  | keyUp : KeyEventType
deriving Repr, DecidableEq

structure KeyEvent where
  event_type : KeyEventType
  scan_code : Int
deriving Repr, DecidableEq

/-- `CounterCore._key_callback` for a key event at `current_time`. -/
def key_callback (current_time : Int) (e : KeyEvent) (c : CounterCore) :
    CounterCore × List Msg :=
  if e.event_type = KeyEventType.keyDown ∧
      e.scan_code = c.settings.input_code then
    handle_input current_time c
  else (c, [])

/-- The mouse-button branch of `CounterCore._mouse_callback`: a DOWN event of
the button with code `button_code`. The source looks `input_code` up in
`button_name_map` (defined for codes 1..5, distinct names) and compares the
event's button to the mapped name, so a DOWN event triggers exactly when
`input_code` is one of 1..5 and the event's button code equals it. -/
def button_callback (current_time : Int) (button_code : Int)
    (c : CounterCore) : CounterCore × List Msg :=
  if 1 ≤ c.settings.input_code ∧ c.settings.input_code ≤ 5 ∧
      button_code = c.settings.input_code then
    handle_input current_time c
  else (c, [])

/-- The wheel branch of `CounterCore._mouse_callback`: a wheel event with the
given `delta` at `current_time` (tracked directions: code 10 = up,
code 11 = down). -/
def wheel_callback (current_time delta : Int) (c : CounterCore) :
    CounterCore × List Msg :=
  if (0 < delta ∧ c.settings.input_code = 10) ∨
      (delta < 0 ∧ c.settings.input_code = 11) then
    if current_time - c.last_scroll_time < scroll_debounce_ms then (c, [])
    else handle_input current_time { c with last_scroll_time := current_time }
  else (c, [])

/-- `CounterCore.set_count`. -/
def set_count (new_count : Int) (c : CounterCore) : CounterCore × List Msg :=
  ({ c with count := new_count, sequence_presses := 0,
            burst_count_tracker := 0 },
   [Msg.countMsg new_count])

/-- `CounterCore.toggle_pause`. -/
def toggle_pause (c : CounterCore) : CounterCore × List Msg :=
  ({ c with settings := { c.settings with is_paused := !c.settings.is_paused } },
   [Msg.pausedMsg (!c.settings.is_paused)])

/-- The settings-replacement branch of `CounterCore.run`. The hook re-arm of
`_setup_hooks` only emits tracking-info status text and touches no
accumulator state, so it is not modelled. -/
def apply_settings (new_settings : Settings) (c : CounterCore) :
    CounterCore × List Msg :=
  ({ c with settings := new_settings, count := new_settings.count,
            sequence_presses := 0, burst_count_tracker := 0 },
   [Msg.countMsg new_settings.count, Msg.pausedMsg new_settings.is_paused])

/-- Sequential classification of a list of event timestamps. -/
def process_events (c : CounterCore) : List Int → CounterCore
  | [] => c
  | t :: ts => process_events (handle_input t c).1 ts

/-- The tracking-field part of `ControlPanel.apply_inputs`: the UI variables
are written onto the settings with `amount = max(1, ...)` and
`burst_idle_ms = max(0, ...)` (style fields omitted). -/
def apply_inputs (rapid_var : Bool) (amount_var burst_idle_var : Int)
    (s : Settings) : Settings :=
  { s with is_rapid_mode := rapid_var, amount := max 1 amount_var,
           burst_idle_ms := max 0 burst_idle_var }

def default_settings : Settings := {}

/-- The numeric tracking fields a persisted `auratrac_lite.json` may carry
(`none` = the key is absent from the file). -/
structure FileData where
  amount : Option Int
  burst_idle_ms : Option Int
deriving Repr, DecidableEq

/-- `load_or_default`, restricted to the fields the claims mention: each field
present in the file overrides the default, then `amount = max(1, amount)` is
applied. The source applies no clamp to `burst_idle_ms` on this path. -/
def load_or_default (d : FileData) : Settings :=
  let s0 := default_settings
  let s1 := { s0 with amount := d.amount.getD s0.amount }
  let s2 := { s1 with burst_idle_ms := d.burst_idle_ms.getD s1.burst_idle_ms }
  { s2 with amount := max 1 s2.amount }

/-- All timestamps positive and every consecutive gap (starting from `prev`)
at most `T`: the shape of a tail of one burst, none of whose events closes
the open sequence. -/
def within_run (T : Int) : Int → List Int → Bool
  | _, [] => true
  | prev, t :: ts => decide (0 < t) && decide (t - prev ≤ T) && within_run T t ts

/-- Strict variant of `within_run`: every gap strictly below `T`. -/
def within_run_lt (T : Int) : Int → List Int → Bool
  | _, [] => true
  | prev, t :: ts => decide (0 < t) && decide (t - prev < T) && within_run_lt T t ts

/-- The same core with only the paused flag forced to `b`. -/
def set_paused (b : Bool) (c : CounterCore) : CounterCore :=
  { c with settings := { c.settings with is_paused := b } }

/-- MultiClick settings with `amount = 3`. -/
def mc3_settings : Settings := { is_rapid_mode := false, amount := 3 }

/-- MultiClick settings with `amount = 4`. -/
def mc4_settings : Settings := { is_rapid_mode := false, amount := 4 }

/-- Burst settings: idle window 100 ms, `amount = 1`. -/
def burst_settings : Settings :=
  { is_rapid_mode := false, amount := 1, burst_idle_ms := 100 }

/-- MultiBurst settings: idle window 500 ms, `amount = 3`. -/
def mb3_settings : Settings :=
  { is_rapid_mode := false, amount := 3, burst_idle_ms := 500 }

/-- A paused core showing count 5. -/
def paused_core : CounterCore := init_core { is_paused := true, count := 5 }

/-- A freshly initialized Rapid-mode core (the source defaults). -/
def rapid_core : CounterCore := init_core default_settings

/-- A Burst-mode core in the middle of a sequence. -/
def busy_core : CounterCore :=
  { settings := burst_settings, count := 3, sequence_presses := 2,
    last_press_time := 40, burst_count_tracker := 1, last_scroll_time := 0 }

/-- A persisted file carrying a negative idle window. -/
def bad_file : FileData := { amount := none, burst_idle_ms := some (-5) }

/-- A core tracking wheel-up events (mouse code 10). -/
def wheel_core : CounterCore := init_core { input_code := 10 }

theorem close_idle_settings (t : Int) (c : CounterCore) :
    (close_idle t c).1.settings = c.settings := by
  unfold close_idle
  split
  · split <;> rfl
  · rfl

theorem close_idle_count (t : Int) (c : CounterCore) :
    (close_idle t c).1.count = c.count := by
  unfold close_idle
  split
  · split <;> rfl
  · rfl

theorem close_idle_scroll (t : Int) (c : CounterCore) :
    (close_idle t c).1.last_scroll_time = c.last_scroll_time := by
  unfold close_idle
  split
  · split <;> rfl
  · rfl

theorem sequence_step_settings (t : Int) (c : CounterCore) :
    (sequence_step t c).1.settings = c.settings := by
  simpa [sequence_step] using close_idle_settings t c

theorem sequence_step_count (t : Int) (c : CounterCore) :
    (sequence_step t c).1.count = c.count := by
  simpa [sequence_step] using close_idle_count t c

theorem sequence_step_scroll (t : Int) (c : CounterCore) :
    (sequence_step t c).1.last_scroll_time = c.last_scroll_time := by
  simpa [sequence_step] using close_idle_scroll t c

/-- Closing an open sequence: the gap since the last (set) event exceeds the
idle window and the sequence has at least one press, so the burst tracker is
bumped and the sequence reopens with this event as press 1. -/
theorem sequence_step_close (t : Int) (c : CounterCore)
    (h1 : 0 < c.settings.burst_idle_ms) (h2 : c.last_press_time ≠ 0)
    (h3 : c.settings.burst_idle_ms < t - c.last_press_time)
    (h4 : 0 < c.sequence_presses) :
    sequence_step t c =
      ({ c with burst_count_tracker := c.burst_count_tracker + 1,
                sequence_presses := 1, last_press_time := t },
       [Msg.statusMsg
          (Status.burstCompleted (c.burst_count_tracker + 1) c.settings.amount)]) := by
  unfold sequence_step close_idle
  rw [if_pos ⟨h1, h2, h3⟩, if_pos h4]
  rfl

/-- No closing happens when the gap does not exceed the idle window: the
sequence just grows by one press. -/
theorem sequence_step_noclose (t : Int) (c : CounterCore)
    (h : ¬(0 < c.settings.burst_idle_ms ∧ c.last_press_time ≠ 0 ∧
        c.settings.burst_idle_ms < t - c.last_press_time)) :
    sequence_step t c =
      ({ c with sequence_presses := c.sequence_presses + 1,
                last_press_time := t }, []) := by
  unfold sequence_step close_idle
  rw [if_neg h]

/-- From an empty sequence the step always lands on `sequence_presses = 1`
with no burst credited, whether or not the closing branch fires. -/
theorem sequence_step_of_empty (t : Int) (c : CounterCore)
    (h : c.sequence_presses = 0) :
    sequence_step t c =
      ({ c with sequence_presses := 1, last_press_time := t }, []) := by
  unfold sequence_step close_idle
  split
  · rw [if_neg (by omega : ¬ 0 < c.sequence_presses)]
    simp
  · simp [h]

theorem handle_input_settings (t : Int) (c : CounterCore) :
    (handle_input t c).1.settings = c.settings := by
  have hs := sequence_step_settings t c
  unfold handle_input update_count
  dsimp only
  repeat' split
  all_goals simp_all

theorem handle_input_scroll (t : Int) (c : CounterCore) :
    (handle_input t c).1.last_scroll_time = c.last_scroll_time := by
  have hs := sequence_step_scroll t c
  unfold handle_input update_count
  dsimp only
  repeat' split
  all_goals simp_all

/-- Rapid mode with the counter paused: bookkeeping still resets, the count
stays. -/
theorem rapid_step_paused (t : Int) (c : CounterCore)
    (hr : c.settings.is_rapid_mode = true) (hp : c.settings.is_paused = true) :
    handle_input t c =
      ({ c with sequence_presses := 0, burst_count_tracker := 0,
                last_press_time := t },
       [Msg.statusMsg Status.rapidPlusOne]) := by
  unfold handle_input update_count
  simp [hr, hp]

/-- Rapid mode, not paused: every event is `+1`. -/
theorem rapid_step_live (t : Int) (c : CounterCore)
    (hr : c.settings.is_rapid_mode = true) (hp : c.settings.is_paused = false) :
    handle_input t c =
      ({ c with count := c.count + 1, sequence_presses := 0,
                burst_count_tracker := 0, last_press_time := t },
       [Msg.countMsg (c.count + 1), Msg.statusMsg Status.rapidPlusOne]) := by
  unfold handle_input update_count
  simp [hr, hp]

/-- An event inside an open sequence (gap within the idle window) in any
idle-enabled mode: no closing, no count change, the sequence grows by one. -/
theorem burst_continue (t : Int) (c : CounterCore)
    (hr : c.settings.is_rapid_mode = false)
    (hT : 0 < c.settings.burst_idle_ms)
    (hnc : ¬(0 < c.settings.burst_idle_ms ∧ c.last_press_time ≠ 0 ∧
        c.settings.burst_idle_ms < t - c.last_press_time))
    (hseq : 1 ≤ c.sequence_presses) :
    handle_input t c =
      ({ c with sequence_presses := c.sequence_presses + 1,
                last_press_time := t },
       [Msg.seqMsg (c.sequence_presses + 1)]) := by
  have hstep := sequence_step_noclose t c hnc
  unfold handle_input
  dsimp only
  rw [hstep]
  have h1 : ¬ (c.sequence_presses + 1 = 1) := by omega
  simp [hr, h1, show ¬ (c.settings.burst_idle_ms = 0) by omega]

/-- First event ever / first event after a reset, in Burst mode
(`idle > 0`, `amount = 1`, unpaused): opens the sequence and counts. -/
theorem first_event_burst (t : Int) (c : CounterCore)
    (hr : c.settings.is_rapid_mode = false)
    (hT : 0 < c.settings.burst_idle_ms) (hA : c.settings.amount = 1)
    (hp : c.settings.is_paused = false) (hseq : c.sequence_presses = 0) :
    handle_input t c =
      ({ c with sequence_presses := 1, last_press_time := t,
                count := c.count + 1 },
       [Msg.countMsg (c.count + 1), Msg.statusMsg Status.burstFirstPress,
        Msg.seqMsg 1]) := by
  have hstep := sequence_step_of_empty t c hseq
  unfold handle_input update_count
  dsimp only
  rw [hstep]
  simp [hr, hA, hp, show ¬ (c.settings.burst_idle_ms = 0) by omega]

/-- First event after a reset, MultiBurst mode, threshold already met:
opens the sequence, counts, and clears the tracker. -/
theorem first_event_multiburst_hit (t : Int) (c : CounterCore)
    (hr : c.settings.is_rapid_mode = false)
    (hT : 0 < c.settings.burst_idle_ms) (hA : 1 < c.settings.amount)
    (hp : c.settings.is_paused = false) (hseq : c.sequence_presses = 0)
    (hhit : c.settings.amount ≤ c.burst_count_tracker) :
    handle_input t c =
      ({ c with sequence_presses := 1, last_press_time := t,
                burst_count_tracker := 0, count := c.count + 1 },
       [Msg.countMsg (c.count + 1),
        Msg.statusMsg (Status.multiBurstMet c.settings.amount),
        Msg.seqMsg 1]) := by
  have hstep := sequence_step_of_empty t c hseq
  unfold handle_input update_count
  dsimp only
  rw [hstep]
  simp [hr, hp, hhit, show ¬ (c.settings.burst_idle_ms = 0) by omega,
    show ¬ (c.settings.amount = 1) by omega, show (1:Int) = 1 by rfl, hA]

/-- First event after a reset, MultiBurst mode, threshold not met: opens the
sequence, no count. -/
theorem first_event_multiburst_miss (t : Int) (c : CounterCore)
    (hr : c.settings.is_rapid_mode = false)
    (hT : 0 < c.settings.burst_idle_ms) (hA : 1 < c.settings.amount)
    (hseq : c.sequence_presses = 0)
    (hmiss : ¬ (c.settings.amount ≤ c.burst_count_tracker)) :
    handle_input t c =
      ({ c with sequence_presses := 1, last_press_time := t },
       [Msg.seqMsg 1]) := by
  have hstep := sequence_step_of_empty t c hseq
  unfold handle_input update_count
  dsimp only
  rw [hstep]
  simp [hr, hmiss, show ¬ (c.settings.burst_idle_ms = 0) by omega,
    show ¬ (c.settings.amount = 1) by omega, hA]

/-- An idle gap above the window reopens the sequence in Burst mode: the
closed burst is credited (irrelevantly for `amount = 1`) and the first press
of the new sequence counts. -/
theorem burst_open_amount_one (t : Int) (c : CounterCore)
    (hr : c.settings.is_rapid_mode = false)
    (hT : 0 < c.settings.burst_idle_ms) (hA : c.settings.amount = 1)
    (hp : c.settings.is_paused = false)
    (hlast : c.last_press_time ≠ 0)
    (hgap : c.settings.burst_idle_ms < t - c.last_press_time)
    (hseq : 1 ≤ c.sequence_presses) :
    handle_input t c =
      ({ c with sequence_presses := 1, last_press_time := t,
                burst_count_tracker := c.burst_count_tracker + 1,
                count := c.count + 1 },
       [Msg.statusMsg
          (Status.burstCompleted (c.burst_count_tracker + 1) c.settings.amount),
        Msg.countMsg (c.count + 1), Msg.statusMsg Status.burstFirstPress,
        Msg.seqMsg 1]) := by
  have hstep := sequence_step_close t c hT hlast hgap (by omega)
  unfold handle_input update_count
  dsimp only
  rw [hstep]
  simp [hr, hA, hp, show ¬ (c.settings.burst_idle_ms = 0) by omega]

/-- An idle gap above the window in MultiBurst mode, with this closing burst
reaching the threshold: the first press of the new sequence counts and the
tracker clears. -/
theorem multiburst_open_hit (t : Int) (c : CounterCore)
    (hr : c.settings.is_rapid_mode = false)
    (hT : 0 < c.settings.burst_idle_ms) (hA : 1 < c.settings.amount)
    (hp : c.settings.is_paused = false)
    (hlast : c.last_press_time ≠ 0)
    (hgap : c.settings.burst_idle_ms < t - c.last_press_time)
    (hseq : 1 ≤ c.sequence_presses)
    (hhit : c.settings.amount ≤ c.burst_count_tracker + 1) :
    handle_input t c =
      ({ c with sequence_presses := 1, last_press_time := t,
                burst_count_tracker := 0, count := c.count + 1 },
       [Msg.statusMsg
          (Status.burstCompleted (c.burst_count_tracker + 1) c.settings.amount),
        Msg.countMsg (c.count + 1),
        Msg.statusMsg (Status.multiBurstMet c.settings.amount),
        Msg.seqMsg 1]) := by
  have hstep := sequence_step_close t c hT hlast hgap (by omega)
  unfold handle_input update_count
  dsimp only
  rw [hstep]
  simp [hr, hp, hhit, show ¬ (c.settings.burst_idle_ms = 0) by omega,
    show ¬ (c.settings.amount = 1) by omega, hA]

/-- An idle gap above the window in MultiBurst mode, threshold not yet
reached: the burst is credited, no count. -/
theorem multiburst_open_miss (t : Int) (c : CounterCore)
    (hr : c.settings.is_rapid_mode = false)
    (hT : 0 < c.settings.burst_idle_ms) (hA : 1 < c.settings.amount)
    (hlast : c.last_press_time ≠ 0)
    (hgap : c.settings.burst_idle_ms < t - c.last_press_time)
    (hseq : 1 ≤ c.sequence_presses)
    (hmiss : ¬ (c.settings.amount ≤ c.burst_count_tracker + 1)) :
    handle_input t c =
      ({ c with sequence_presses := 1, last_press_time := t,
                burst_count_tracker := c.burst_count_tracker + 1 },
       [Msg.statusMsg
          (Status.burstCompleted (c.burst_count_tracker + 1) c.settings.amount),
        Msg.seqMsg 1]) := by
  have hstep := sequence_step_close t c hT hlast hgap (by omega)
  unfold handle_input update_count
  dsimp only
  rw [hstep]
  simp [hr, hmiss, show ¬ (c.settings.burst_idle_ms = 0) by omega,
    show ¬ (c.settings.amount = 1) by omega, hA]

/-- A MultiClick event whose post-increment sequence position is a multiple
of `amount`: the count advances. -/
theorem multiclick_hit (t : Int) (c : CounterCore)
    (hr : c.settings.is_rapid_mode = false)
    (hi : c.settings.burst_idle_ms = 0)
    (hp : c.settings.is_paused = false)
    (hm : (c.sequence_presses + 1) % c.settings.amount = 0) :
    handle_input t c =
      ({ c with sequence_presses := c.sequence_presses + 1,
                last_press_time := t, count := c.count + 1 },
       [Msg.countMsg (c.count + 1),
        Msg.statusMsg (Status.multiClickMet c.settings.amount),
        Msg.seqMsg (c.sequence_presses + 1)]) := by
  have hstep := sequence_step_noclose t c (by rintro ⟨h1, -, -⟩; omega)
  unfold handle_input update_count
  dsimp only
  rw [hstep]
  simp [hr, hi, hp, hm]

/-- A MultiClick event off the multiple: no count change. -/
theorem multiclick_miss (t : Int) (c : CounterCore)
    (hr : c.settings.is_rapid_mode = false)
    (hi : c.settings.burst_idle_ms = 0)
    (hm : ¬ ((c.sequence_presses + 1) % c.settings.amount = 0)) :
    handle_input t c =
      ({ c with sequence_presses := c.sequence_presses + 1,
                last_press_time := t },
       [Msg.seqMsg (c.sequence_presses + 1)]) := by
  have hstep := sequence_step_noclose t c (by rintro ⟨h1, -, -⟩; omega)
  unfold handle_input update_count
  dsimp only
  rw [hstep]
  simp [hr, hi, hm]

/-- In any non-rapid mode the count logic never touches the sequence
position: it is the one computed by the closing-and-increment step. -/
theorem handle_input_seq (t : Int) (c : CounterCore)
    (hr : c.settings.is_rapid_mode = false) :
    (handle_input t c).1.sequence_presses
      = (sequence_step t c).1.sequence_presses := by
  unfold handle_input update_count
  dsimp only
  repeat' split
  all_goals simp_all

/-- While paused, classification never changes the count. -/
theorem handle_input_count_paused (t : Int) (c : CounterCore)
    (hp : c.settings.is_paused = true) :
    (handle_input t c).1.count = c.count := by
  have hs := sequence_step_settings t c
  have hc := sequence_step_count t c
  unfold handle_input update_count
  dsimp only
  repeat' split
  all_goals simp_all

/-- The closing-and-increment step ignores the paused flag entirely. -/
theorem sequence_step_set_paused (t : Int) (c : CounterCore) (b : Bool) :
    sequence_step t (set_paused b c)
      = (set_paused b (sequence_step t c).1, (sequence_step t c).2) := by
  unfold sequence_step close_idle set_paused
  dsimp only
  by_cases h1 : 0 < c.settings.burst_idle_ms ∧ c.last_press_time ≠ 0 ∧
      c.settings.burst_idle_ms < t - c.last_press_time
  · by_cases h2 : 0 < c.sequence_presses
    · simp [h1, h2]
    · simp [h1, h2]
  · simp [h1]

theorem update_count_set_paused_true (x : CounterCore) (d : Int) :
    update_count (set_paused true x) d = (set_paused true x, []) := by
  simp [update_count, set_paused]

theorem update_count_set_paused_false (x : CounterCore) (d : Int) :
    update_count (set_paused false x) d
      = (set_paused false { x with count := x.count + d },
         [Msg.countMsg (x.count + d)]) := by
  simp [update_count, set_paused]

/-- Master pause lemma: the paused run of `_handle_input` produces exactly
the unpaused state with the count put back. -/
theorem handle_input_set_paused (t : Int) (c : CounterCore) :
    (handle_input t (set_paused true c)).1
      = set_paused true { (handle_input t (set_paused false c)).1 with count := c.count } := by
  have hc := sequence_step_count t c
  unfold handle_input
  dsimp only
  rw [sequence_step_set_paused t c true, sequence_step_set_paused t c false]
  dsimp only
  simp only [update_count_set_paused_true, update_count_set_paused_false]
  dsimp only [set_paused]
  repeat' split
  all_goals simp_all

/-- One-step Burst-mode characterization: from any state with a non-negative
sequence position, the count moves by at most one, and it advances exactly
when the event lands on sequence position 1. -/
theorem burst_step_iff (t : Int) (c : CounterCore)
    (hr : c.settings.is_rapid_mode = false)
    (hT : 0 < c.settings.burst_idle_ms) (hA : c.settings.amount = 1)
    (hp : c.settings.is_paused = false) (hnn : 0 ≤ c.sequence_presses) :
    ((handle_input t c).1.count = c.count + 1 ∨
      (handle_input t c).1.count = c.count) ∧
    ((handle_input t c).1.count = c.count + 1 ↔
      (handle_input t c).1.sequence_presses = 1) := by
  by_cases h0 : c.sequence_presses = 0
  · rw [first_event_burst t c hr hT hA hp h0]
    dsimp only
    omega
  · have hseq : 1 ≤ c.sequence_presses := by omega
    by_cases hcl : 0 < c.settings.burst_idle_ms ∧ c.last_press_time ≠ 0 ∧
        c.settings.burst_idle_ms < t - c.last_press_time
    · rw [burst_open_amount_one t c hr hT hA hp hcl.2.1 hcl.2.2 hseq]
      dsimp only
      omega
    · rw [burst_continue t c hr hT hcl hseq]
      dsimp only
      omega

/-- One-step MultiBurst-mode characterization: the count moves by at most
one; it advances exactly when, after the idle-closing step, the sequence
position is 1 and the burst tracker has reached `amount`, and the tracker is
cleared exactly then. -/
theorem multiburst_step_iff (t : Int) (c : CounterCore)
    (hr : c.settings.is_rapid_mode = false)
    (hT : 0 < c.settings.burst_idle_ms) (hA : 1 < c.settings.amount)
    (hp : c.settings.is_paused = false) (hnn : 0 ≤ c.sequence_presses) :
    ((handle_input t c).1.count = c.count + 1 ∨
      (handle_input t c).1.count = c.count) ∧
    ((handle_input t c).1.count = c.count + 1 ↔
      ((sequence_step t c).1.sequence_presses = 1 ∧
        c.settings.amount ≤ (sequence_step t c).1.burst_count_tracker)) ∧
    ((sequence_step t c).1.sequence_presses = 1 ∧
        c.settings.amount ≤ (sequence_step t c).1.burst_count_tracker →
      (handle_input t c).1.burst_count_tracker = 0) := by
  by_cases h0 : c.sequence_presses = 0
  · rw [sequence_step_of_empty t c h0]
    by_cases hhit : c.settings.amount ≤ c.burst_count_tracker
    · rw [first_event_multiburst_hit t c hr hT hA hp h0 hhit]
      dsimp only
      omega
    · rw [first_event_multiburst_miss t c hr hT hA h0 hhit]
      dsimp only
      omega
  · have hseq : 1 ≤ c.sequence_presses := by omega
    by_cases hcl : 0 < c.settings.burst_idle_ms ∧ c.last_press_time ≠ 0 ∧
        c.settings.burst_idle_ms < t - c.last_press_time
    · rw [sequence_step_close t c hcl.1 hcl.2.1 hcl.2.2 hseq]
      by_cases hhit : c.settings.amount ≤ c.burst_count_tracker + 1
      · rw [multiburst_open_hit t c hr hT hA hp hcl.2.1 hcl.2.2 hseq hhit]
        dsimp only
        omega
      · rw [multiburst_open_miss t c hr hT hA hcl.2.1 hcl.2.2 hseq hhit]
        dsimp only
        omega
    · rw [sequence_step_noclose t c hcl]
      rw [burst_continue t c hr hT hcl hseq]
      dsimp only
      omega


theorem process_events_append (l1 l2 : List Int) :
    ∀ c, process_events c (l1 ++ l2) = process_events (process_events c l1) l2 := by
  induction l1 with
  | nil => intro c; rfl
  | cons t ts ih => intro c; simp [process_events, ih]

theorem process_events_settings :
    ∀ (ts : List Int) (c : CounterCore),
      (process_events c ts).settings = c.settings := by
  intro ts
  induction ts with
  | nil => intro c; rfl
  | cons t ts ih =>
    intro c
    rw [process_events, ih, handle_input_settings]

theorem within_run_of_lt (T : Int) :
    ∀ (ts : List Int) (prev : Int), within_run_lt T prev ts = true →
      within_run T prev ts = true := by
  intro ts
  induction ts with
  | nil => intro prev _; rfl
  | cons t ts ih =>
    intro prev hw
    simp only [within_run_lt, Bool.and_eq_true, decide_eq_true_eq] at hw
    simp only [within_run, Bool.and_eq_true, decide_eq_true_eq]
    exact ⟨⟨hw.1.1, by omega⟩, ih t hw.2⟩

theorem within_run_getLastD_pos (T : Int) :
    ∀ (ts : List Int) (prev : Int), 0 < prev → within_run T prev ts = true →
      0 < ts.getLastD prev := by
  intro ts
  induction ts with
  | nil => intro prev h _; simpa using h
  | cons t ts ih =>
    intro prev h hw
    simp only [within_run, Bool.and_eq_true, decide_eq_true_eq] at hw
    rw [List.getLastD_cons]
    exact ih t hw.1.1 hw.2

/-- Processing a whole within-window run while a sequence is open: only the
sequence position and the last timestamp move. -/
theorem run_within (T : Int) :
    ∀ (ts : List Int) (c : CounterCore),
      c.settings.is_rapid_mode = false →
      c.settings.burst_idle_ms = T → 0 < T →
      1 ≤ c.sequence_presses →
      within_run T c.last_press_time ts = true →
      process_events c ts =
        { c with sequence_presses := c.sequence_presses + ts.length,
                 last_press_time := ts.getLastD c.last_press_time } := by
  intro ts
  induction ts with
  | nil =>
    intro c _ _ _ _ _
    simp [process_events]
  | cons t ts ih =>
    intro c hr hT h0 hseq hw
    simp only [within_run, Bool.and_eq_true, decide_eq_true_eq] at hw
    have hstep := burst_continue t c hr (by omega)
      (by rintro ⟨-, -, hx⟩; omega) hseq
    rw [process_events, hstep]
    rw [ih { c with sequence_presses := c.sequence_presses + 1, last_press_time := t } hr hT h0 (by dsimp only; omega) (by dsimp only; exact hw.2)]
    rw [List.getLastD_cons, List.length_cons]
    congr 1
    push_cast
    ring

/-- MultiClick accumulation over a whole run: timestamps are irrelevant, the
sequence position counts events, and the count advances once per completed
group of `N`. -/
theorem multiclick_run (N : Nat) (hN : 1 ≤ N) :
    ∀ (ts : List Int) (c : CounterCore) (m : Nat),
      c.settings.is_rapid_mode = false →
      c.settings.burst_idle_ms = 0 →
      c.settings.amount = (N : Int) →
      c.settings.is_paused = false →
      c.sequence_presses = (m : Int) →
      (process_events c ts).sequence_presses = ((m + ts.length : Nat) : Int) ∧
      (process_events c ts).count
        = c.count + (((m + ts.length) / N : Nat) : Int) - ((m / N : Nat) : Int) := by
  intro ts
  induction ts with
  | nil =>
    intro c m _ _ _ _ hm
    simp [process_events, hm]
  | cons t ts ih =>
    intro c m hr hi ha hp hm
    have hcast : (c.sequence_presses + 1) % c.settings.amount
        = (((m + 1) % N : Nat) : Int) := by
      rw [hm, ha, Int.natCast_mod]
      push_cast
      ring
    have harith : m + 1 + ts.length = m + (ts.length + 1) := by omega
    by_cases hdiv : (m + 1) % N = 0
    · have hstep := multiclick_hit t c hr hi hp (by rw [hcast, hdiv]; simp)
      have hdvd : N ∣ (m + 1) := Nat.dvd_of_mod_eq_zero hdiv
      have hsucc : (m + 1) / N = m / N + 1 := Nat.succ_div_of_dvd hdvd
      obtain ⟨ihs, ihc⟩ := ih { c with sequence_presses := c.sequence_presses + 1, last_press_time := t, count := c.count + 1 } (m + 1) hr hi ha hp (by dsimp only; rw [hm]; push_cast; ring)
      have hpe : process_events c (t :: ts)
          = process_events { c with sequence_presses := c.sequence_presses + 1, last_press_time := t, count := c.count + 1 } ts := by
        rw [process_events, hstep]
      rw [hpe]
      refine ⟨?_, ?_⟩
      · rw [ihs, List.length_cons, harith]
      · rw [ihc, List.length_cons, ← harith, hsucc]
        dsimp only
        push_cast
        ring
    · have hstep := multiclick_miss t c hr hi (by rw [hcast]; exact_mod_cast hdiv)
      have hndvd : ¬ N ∣ (m + 1) := fun hd => hdiv (by
        obtain ⟨k, hk⟩ := hd
        simp [hk, Nat.mul_mod_right])
      have hsucc : (m + 1) / N = m / N := Nat.succ_div_of_not_dvd hndvd
      obtain ⟨ihs, ihc⟩ := ih { c with sequence_presses := c.sequence_presses + 1, last_press_time := t } (m + 1) hr hi ha hp (by dsimp only; rw [hm]; push_cast; ring)
      have hpe : process_events c (t :: ts)
          = process_events { c with sequence_presses := c.sequence_presses + 1, last_press_time := t } ts := by
        rw [process_events, hstep]
      rw [hpe]
      refine ⟨?_, ?_⟩
      · rw [ihs, List.length_cons, harith]
      · rw [ihc, List.length_cons, ← harith, hsucc]

/-- C3: In MultiClick mode (`idleMs = 0`, unpaused, `amount = N ≥ 1`), the
count advances exactly on the events whose post-increment sequence position
is a multiple of `N`, and after exactly `k * N` events since the last reset
the count has advanced exactly `k` times, for every timestamp list. -/
theorem c3_multiclick_every_nth (N k : Nat) (hN : 1 ≤ N) (c : CounterCore)
    (hr : c.settings.is_rapid_mode = false)
    (hi : c.settings.burst_idle_ms = 0)
    (ha : c.settings.amount = (N : Int))
    (hp : c.settings.is_paused = false)
    (hs : c.sequence_presses = 0)
    (ts : List Int) (hlen : ts.length = k * N) :
    (process_events c ts).count = c.count + (k : Int) ∧
    (∀ (d : CounterCore) (t : Int), d.settings = c.settings →
      (((handle_input t d).1.count = d.count + 1 ∨
        (handle_input t d).1.count = d.count) ∧
       ((handle_input t d).1.count = d.count + 1 ↔
        (handle_input t d).1.sequence_presses % (N : Int) = 0))) := by
  constructor
  · obtain ⟨-, hcount⟩ := multiclick_run N hN ts c 0 hr hi ha hp (by simpa using hs)
    rw [hcount, hlen]
    simp [Nat.mul_div_cancel _ (by omega : 0 < N)]
  · intro d t hd
    have hr' : d.settings.is_rapid_mode = false := by rw [hd]; exact hr
    have hi' : d.settings.burst_idle_ms = 0 := by rw [hd]; exact hi
    have ha' : d.settings.amount = (N : Int) := by rw [hd]; exact ha
    have hp' : d.settings.is_paused = false := by rw [hd]; exact hp
    by_cases hm : (d.sequence_presses + 1) % d.settings.amount = 0
    · rw [multiclick_hit t d hr' hi' hp' hm]
      rw [ha'] at hm
      dsimp only
      constructor
      · left; rfl
      · simp [hm]
    · rw [multiclick_miss t d hr' hi' hm]
      rw [ha'] at hm
      dsimp only
      constructor
      · right; rfl
      · constructor
        · intro h; omega
        · intro h; exact absurd h hm

/-- Witness for C3 at `N = 3`, `k = 2` with six arbitrary timestamps. -/
theorem c3_multiclick_witness :
    (1 ≤ 3 ∧ ([5, 6, 7, 8, 9, 10] : List Int).length = 2 * 3) ∧
    (process_events (init_core mc3_settings) [5, 6, 7, 8, 9, 10]).count
      = (init_core mc3_settings).count + ((2 : Nat) : Int) :=
  ⟨⟨by decide, by decide⟩,
    (c3_multiclick_every_nth 3 2 (by decide) (init_core mc3_settings)
      (by decide) (by decide) (by decide) (by decide) (by decide)
      [5, 6, 7, 8, 9, 10] (by decide)).1⟩

/-- C4: For every state and event, processing while paused mutates
`sequence_presses`, `burst_count_tracker` and `last_press_time` exactly as
processing while unpaused does, but leaves the count unchanged; and toggling
pause itself never changes the count (unpausing credits nothing). -/
theorem c4_pause_freezes_counter_not_bookkeeping (c : CounterCore) (t : Int) :
    (handle_input t (set_paused true c)).1.sequence_presses
      = (handle_input t (set_paused false c)).1.sequence_presses ∧
    (handle_input t (set_paused true c)).1.burst_count_tracker
      = (handle_input t (set_paused false c)).1.burst_count_tracker ∧
    (handle_input t (set_paused true c)).1.last_press_time
      = (handle_input t (set_paused false c)).1.last_press_time ∧
    (handle_input t (set_paused true c)).1.count = c.count ∧
    (toggle_pause c).1.count = c.count := by
  have h := handle_input_set_paused t c
  refine ⟨?_, ?_, ?_, ?_, rfl⟩ <;> (rw [h]; rfl)

/-- C5 counterexample: with `paused = true` and count 5, `set_count 0` forces
the visible count to 0 and a settings replacement carrying `count = 7`
forces it to 7 — the count changes while paused, contradicting the claim for
`setCount` and settings replacement. -/
theorem c5_counterexample :
    paused_core.settings.is_paused = true ∧ paused_core.count = 5 ∧
    (set_count 0 paused_core).1.count = 0 ∧
    (apply_settings { is_paused := true, count := 7 } paused_core).1.count = 7 :=
  ⟨rfl, rfl, rfl, rfl⟩

/-- C5 amended: while paused, event classification, increment/decrement and
pause toggling leave the count unchanged, but `set_count` and settings
replacement overwrite the count regardless of the paused flag. -/
theorem c5_amended_count_changes (c : CounterCore) (t delta : Int)
    (hp : c.settings.is_paused = true) :
    (handle_input t c).1.count = c.count ∧
    (update_count c delta).1.count = c.count ∧
    (toggle_pause c).1.count = c.count ∧
    (∀ m : Int, (set_count m c).1.count = m) ∧
    (∀ s : Settings, (apply_settings s c).1.count = s.count) := by
  refine ⟨handle_input_count_paused t c hp, ?_, rfl, fun m => rfl, fun s => rfl⟩
  simp [update_count, hp]

/-- Witness for C5 (amended) on the concrete paused core. -/
theorem c5_amended_witness :
    paused_core.settings.is_paused = true ∧
    (handle_input 50 paused_core).1.count = paused_core.count ∧
    (set_count 0 paused_core).1.count = 0 :=
  ⟨rfl, (c5_amended_count_changes paused_core 50 1 rfl).1,
    (c5_amended_count_changes paused_core 50 1 rfl).2.2.2.1 0⟩

/-- C6: Settings replacement (even with identical values) and `set_count`
reset `sequence_presses` and `burst_count_tracker` to 0, replacement takes
the count from the incoming settings, and an in-progress MultiClick(4)
sequence is never partially credited: two events, then a replacement, then
three more events leave the count at the incoming value, and the fourth
further event advances it. -/
theorem c6_replace_resets (s : Settings) (c : CounterCore) (n : Int)
    (e1 e2 u1 u2 u3 u4 : Int)
    (hr : s.is_rapid_mode = false) (hi : s.burst_idle_ms = 0)
    (ha : s.amount = 4) (hp : s.is_paused = false) :
    ((apply_settings s c).1.sequence_presses = 0 ∧
     (apply_settings s c).1.burst_count_tracker = 0 ∧
     (apply_settings s c).1.count = s.count ∧
     (set_count n c).1.sequence_presses = 0 ∧
     (set_count n c).1.burst_count_tracker = 0) ∧
    (process_events (apply_settings s (process_events c [e1, e2])).1
      [u1, u2, u3]).count = s.count ∧
    (process_events (apply_settings s (process_events c [e1, e2])).1
      [u1, u2, u3, u4]).count = s.count + 1 := by
  refine ⟨⟨rfl, rfl, rfl, rfl, rfl⟩, ?_, ?_⟩
  · obtain ⟨-, h3⟩ := multiclick_run 4 (by omega) [u1, u2, u3]
      ((apply_settings s (process_events c [e1, e2])).1) 0 hr hi
      (by exact_mod_cast ha) hp (by simp [apply_settings])
    rw [h3]
    norm_num [apply_settings]
  · obtain ⟨-, h4⟩ := multiclick_run 4 (by omega) [u1, u2, u3, u4]
      ((apply_settings s (process_events c [e1, e2])).1) 0 hr hi
      (by exact_mod_cast ha) hp (by simp [apply_settings])
    rw [h4]
    norm_num [apply_settings]

/-- Witness for C6: replacement after two events of a MultiClick(4) core. -/
theorem c6_witness :
    (mc4_settings.is_rapid_mode = false ∧ mc4_settings.amount = 4) ∧
    (process_events (apply_settings mc4_settings
      (process_events rapid_core [1, 2])).1 [3, 4, 5]).count
        = mc4_settings.count ∧
    (process_events (apply_settings mc4_settings
      (process_events rapid_core [1, 2])).1 [3, 4, 5, 6]).count
        = mc4_settings.count + 1 :=
  ⟨⟨rfl, rfl⟩,
    (c6_replace_resets mc4_settings rapid_core 0 1 2 3 4 5 6
      rfl rfl rfl rfl).2.1,
    (c6_replace_resets mc4_settings rapid_core 0 1 2 3 4 5 6
      rfl rfl rfl rfl).2.2⟩

/-- C8 counterexample: loading a persisted file with `burst_idle_ms = -5`
yields settings whose idle window is negative — the file-loading ingestion
point does not clamp `idleMs`, contradicting the claim. -/
theorem c8_counterexample :
    (load_or_default bad_file).burst_idle_ms = -5 ∧
    ¬ (0 ≤ (load_or_default bad_file).burst_idle_ms) := by
  decide

/-- C8 amended: the UI apply path clamps `amount ≥ 1` and `idleMs ≥ 0`, and
the file-loading path clamps `amount ≥ 1`; but the loading path passes
`burst_idle_ms` through unclamped. -/
theorem c8_amended_clamping (r : Bool) (a i : Int) (s : Settings)
    (d : FileData) :
    (1 ≤ (apply_inputs r a i s).amount ∧
      0 ≤ (apply_inputs r a i s).burst_idle_ms) ∧
    1 ≤ (load_or_default d).amount ∧
    (∀ j : Int, d.burst_idle_ms = some j →
      (load_or_default d).burst_idle_ms = j) := by
  refine ⟨⟨le_max_left 1 a, le_max_left 0 i⟩, le_max_left 1 _, ?_⟩
  intro j hj
  simp [load_or_default, hj]

/-- Witness for C8 (amended) at concrete malformed inputs. -/
theorem c8_amended_witness :
    (1 ≤ (apply_inputs false (-3) (-7) default_settings).amount ∧
      0 ≤ (apply_inputs false (-3) (-7) default_settings).burst_idle_ms) ∧
    (load_or_default bad_file).burst_idle_ms = -5 :=
  ⟨(c8_amended_clamping false (-3) (-7) default_settings bad_file).1,
    (c8_amended_clamping false (-3) (-7) default_settings bad_file).2.2
      (-5) rfl⟩

/-- C9 counterexample: in Rapid mode `_handle_input` returns before the
`sequence_presses` notification is pushed, so a Rapid event emits no
`SequenceProgress` message at all, contradicting "in every mode including
Rapid". -/
theorem c9_counterexample :
    (handle_input 5 rapid_core).2
      = [Msg.countMsg 1, Msg.statusMsg Status.rapidPlusOne] ∧
    ∀ n : Int, Msg.seqMsg n ∉ (handle_input 5 rapid_core).2 := by
  have h : (handle_input 5 rapid_core).2
      = [Msg.countMsg 1, Msg.statusMsg Status.rapidPlusOne] := by decide
  refine ⟨h, ?_⟩
  intro n
  rw [h]
  simp

/-- C9 amended: every accepted event in a non-rapid mode pushes a
`SequenceProgress` notification carrying the post-event sequence position;
Rapid-mode events push none. -/
theorem c9_amended_sequence_notification (c : CounterCore) (t : Int) :
    (c.settings.is_rapid_mode = false →
      Msg.seqMsg ((handle_input t c).1.sequence_presses)
        ∈ (handle_input t c).2) ∧
    (c.settings.is_rapid_mode = true →
      ∀ n : Int, Msg.seqMsg n ∉ (handle_input t c).2) := by
  constructor
  · intro hr
    unfold handle_input
    dsimp only
    rw [if_neg (by simp [hr])]
    simp
  · intro hr n
    unfold handle_input update_count
    dsimp only
    rw [if_pos (by simp [hr])]
    by_cases hp : c.settings.is_paused
    · simp [hp]
    · simp [hp]

/-- Witness for C9 (amended): a non-rapid core emits the progress message, a
rapid core emits none. -/
theorem c9_amended_witness :
    Msg.seqMsg ((handle_input 5 (init_core mc3_settings)).1.sequence_presses)
      ∈ (handle_input 5 (init_core mc3_settings)).2 ∧
    Msg.seqMsg 1 ∉ (handle_input 5 rapid_core).2 :=
  ⟨(c9_amended_sequence_notification (init_core mc3_settings) 5).1 rfl,
    (c9_amended_sequence_notification rapid_core 5).2 rfl 1⟩

/-- C10: Settings replacement and `set_count` leave `last_press_time` and
`last_scroll_time` unchanged; consequently the first event after a
replacement (to a non-rapid configuration) always opens a new sequence with
`sequence_presses = 1`, and in Burst mode it advances the count immediately,
whatever the elapsed gap. -/
theorem c10_reset_keeps_timestamps (s : Settings) (c : CounterCore)
    (n t : Int) (hr : s.is_rapid_mode = false) :
    ((apply_settings s c).1.last_press_time = c.last_press_time ∧
     (apply_settings s c).1.last_scroll_time = c.last_scroll_time ∧
     (set_count n c).1.last_press_time = c.last_press_time ∧
     (set_count n c).1.last_scroll_time = c.last_scroll_time) ∧
    (handle_input t (apply_settings s c).1).1.sequence_presses = 1 ∧
    (0 < s.burst_idle_ms → s.amount = 1 → s.is_paused = false →
      (handle_input t (apply_settings s c).1).1.count = s.count + 1) := by
  refine ⟨⟨rfl, rfl, rfl, rfl⟩, ?_, ?_⟩
  · rw [handle_input_seq t _ hr, sequence_step_of_empty _ _ rfl]
  · intro hT hA hp
    rw [first_event_burst t _ hr hT hA hp rfl]
    rfl

/-- Witness for C10: replacing settings mid-sequence (last press at 40) and
pressing again at 41 — only 1 ms later — still counts in Burst mode. -/
theorem c10_witness :
    (burst_settings.is_rapid_mode = false ∧ 0 < burst_settings.burst_idle_ms ∧
      burst_settings.amount = 1 ∧ burst_settings.is_paused = false) ∧
    (apply_settings burst_settings busy_core).1.last_press_time = 40 ∧
    (handle_input 41 (apply_settings burst_settings busy_core).1).1.sequence_presses = 1 ∧
    (handle_input 41 (apply_settings burst_settings busy_core).1).1.count
      = burst_settings.count + 1 :=
  ⟨⟨rfl, by decide, rfl, rfl⟩, rfl,
    (c10_reset_keeps_timestamps burst_settings busy_core 0 41 rfl).2.1,
    (c10_reset_keeps_timestamps burst_settings busy_core 0 41 rfl).2.2
      (by decide) rfl rfl⟩

/-- C7: A tracked wheel event within 100 ms of the last accepted wheel event
is discarded with no state change at all and no debounce-timestamp update;
an accepted wheel event and a second one 150 ms later are both classified;
matching key-down and mouse-button-down events are classified
unconditionally, with no debounce. -/
theorem c7_wheel_debounce (c : CounterCore) (t d b : Int) (e : KeyEvent) :
    ((0 < d ∧ c.settings.input_code = 10) ∨
        (d < 0 ∧ c.settings.input_code = 11) →
      (t - c.last_scroll_time < 100 → wheel_callback t d c = (c, [])) ∧
      (100 ≤ t - c.last_scroll_time →
        wheel_callback t d c
          = handle_input t { c with last_scroll_time := t } ∧
        wheel_callback (t + 150) d
            (handle_input t { c with last_scroll_time := t }).1
          = handle_input (t + 150)
              { (handle_input t { c with last_scroll_time := t }).1 with
                  last_scroll_time := t + 150 })) ∧
    (e.event_type = KeyEventType.keyDown →
      e.scan_code = c.settings.input_code →
      key_callback t e c = handle_input t c) ∧
    (1 ≤ c.settings.input_code → c.settings.input_code ≤ 5 →
      b = c.settings.input_code →
      button_callback t b c = handle_input t c) := by
  refine ⟨?_, ?_, ?_⟩
  · intro hdir
    constructor
    · intro hlt
      unfold wheel_callback
      rw [if_pos hdir, if_pos (by unfold scroll_debounce_ms; omega)]
    · intro hge
      refine ⟨?_, ?_⟩
      · unfold wheel_callback
        rw [if_pos hdir, if_neg (by unfold scroll_debounce_ms; omega)]
      · have hsc : (handle_input t { c with last_scroll_time := t }).1.last_scroll_time = t := by
          rw [handle_input_scroll]
        have hset : (handle_input t { c with last_scroll_time := t }).1.settings = c.settings := by
          rw [handle_input_settings]
        unfold wheel_callback
        dsimp only
        rw [hset, hsc, if_pos hdir, if_neg (by unfold scroll_debounce_ms; omega)]
  · intro h1 h2
    unfold key_callback
    rw [if_pos ⟨h1, h2⟩]
  · intro h1 h2 h3
    unfold button_callback
    rw [if_pos ⟨h1, h2, h3⟩]

/-- Witness for C7: on a fresh wheel-tracked core, an up-wheel at 30 ms is
debounced away entirely, while one at 200 ms is accepted. -/
theorem c7_wheel_witness :
    ((0 < (1 : Int) ∧ wheel_core.settings.input_code = 10) ∧
      30 - wheel_core.last_scroll_time < 100 ∧
      100 ≤ 200 - wheel_core.last_scroll_time) ∧
    wheel_callback 30 1 wheel_core = (wheel_core, []) ∧
    wheel_callback 200 1 wheel_core
      = handle_input 200 { wheel_core with last_scroll_time := 200 } :=
  ⟨⟨⟨by decide, rfl⟩, by decide, by decide⟩,
    ((c7_wheel_debounce wheel_core 30 1 0 ⟨KeyEventType.keyDown, 44⟩).1
      (Or.inl ⟨by decide, rfl⟩)).1 (by decide),
    (((c7_wheel_debounce wheel_core 200 1 0 ⟨KeyEventType.keyDown, 44⟩).1
      (Or.inl ⟨by decide, rfl⟩)).2 (by decide)).1⟩

/-- C2 counterexample: Burst mode with `T = 100`; the second event arrives
exactly `T` after the first (gap ≥ T as the claim demands), yet the code
does not reopen the sequence — the count stays at 1 instead of reaching 2,
because the source reopens only on gaps strictly greater than `T`. -/
theorem c2_counterexample :
    (100 : Int) ≤ 150 - 50 ∧
    (process_events (init_core burst_settings) [50]).count = 1 ∧
    (process_events (init_core burst_settings) [50, 150]).count = 1 ∧
    ¬ ((process_events (init_core burst_settings) [50, 150]).count = 2) := by
  decide

/-- C2 (amended): In Burst mode, unpaused, the count advances exactly on the
first event of each freshly (re)opened sequence: a run with inter-event gaps
below `T` advances the count exactly once, on its first event, and a second
run whose first event arrives after a gap strictly greater than `T` (not
merely `≥ T`) advances it exactly once more; later events of an open
sequence never advance it. -/
theorem c2_burst_amended (T : Int) (s : Settings)
    (hr : s.is_rapid_mode = false) (hT : s.burst_idle_ms = T) (h0 : 0 < T)
    (hA : s.amount = 1) (hp : s.is_paused = false)
    (h1 : Int) (tail1 : List Int) (h2 : Int) (tail2 : List Int)
    (hpos1 : 0 < h1) (hw1 : within_run_lt T h1 tail1 = true)
    (hgap : T < h2 - tail1.getLastD h1)
    (hw2 : within_run_lt T h2 tail2 = true) :
    (process_events (init_core s) [h1]).count = s.count + 1 ∧
    (process_events (init_core s) (h1 :: tail1)).count = s.count + 1 ∧
    (process_events (init_core s) ((h1 :: tail1) ++ [h2])).count
      = s.count + 2 ∧
    (process_events (init_core s) ((h1 :: tail1) ++ (h2 :: tail2))).count
      = s.count + 2 ∧
    (∀ (dd : CounterCore) (t : Int), dd.settings = s →
      0 ≤ dd.sequence_presses →
      (((handle_input t dd).1.count = dd.count + 1 ∨
        (handle_input t dd).1.count = dd.count) ∧
       ((handle_input t dd).1.count = dd.count + 1 ↔
        (handle_input t dd).1.sequence_presses = 1))) := by
  have hini : init_core s = (⟨s, s.count, 0, 0, 0, 0⟩ : CounterCore) := rfl
  have e1 : (handle_input h1 (⟨s, s.count, 0, 0, 0, 0⟩ : CounterCore)).1
      = (⟨s, s.count + 1, 1, h1, 0, 0⟩ : CounterCore) := by
    rw [first_event_burst h1 _ hr (by dsimp only; omega) hA hp rfl]
  have hrun1 : process_events (⟨s, s.count, 0, 0, 0, 0⟩ : CounterCore) (h1 :: tail1)
      = (⟨s, s.count + 1, 1 + (tail1.length : Int), tail1.getLastD h1, 0, 0⟩ : CounterCore) := by
    simp only [process_events]
    rw [e1]
    rw [run_within T tail1 _ hr hT h0 (le_refl 1) (within_run_of_lt T tail1 h1 hw1)]
  have hpos : 0 < tail1.getLastD h1 :=
    within_run_getLastD_pos T tail1 h1 hpos1 (within_run_of_lt T tail1 h1 hw1)
  have e2 : (handle_input h2 (⟨s, s.count + 1, 1 + (tail1.length : Int), tail1.getLastD h1, 0, 0⟩ : CounterCore)).1
      = (⟨s, s.count + 1 + 1, 1, h2, 0 + 1, 0⟩ : CounterCore) := by
    rw [burst_open_amount_one h2 _ hr (by dsimp only; omega) hA hp
      (by dsimp only; omega) (by dsimp only; omega) (by dsimp only; omega)]
  have hrun2 : process_events (⟨s, s.count + 1 + 1, 1, h2, 0 + 1, 0⟩ : CounterCore) tail2
      = (⟨s, s.count + 1 + 1, 1 + (tail2.length : Int), tail2.getLastD h2, 0 + 1, 0⟩ : CounterCore) := by
    rw [run_within T tail2 _ hr hT h0 (le_refl 1) (within_run_of_lt T tail2 h2 hw2)]
  refine ⟨?_, ?_, ?_, ?_, ?_⟩
  · rw [hini]
    simp only [process_events]
    rw [e1]
  · rw [hini, hrun1]
  · rw [hini, process_events_append, hrun1]
    simp only [process_events]
    rw [e2]
    dsimp only
    omega
  · rw [hini, process_events_append, hrun1]
    simp only [process_events]
    rw [e2, hrun2]
    dsimp only
    omega
  · intro dd t hds hnn
    exact burst_step_iff t dd (by rw [hds]; exact hr)
      (by rw [hds, hT]; exact h0) (by rw [hds]; exact hA)
      (by rw [hds]; exact hp) hnn

/-- Witness for C2 (amended): `T = 100`, a first run at 10, 20, 30, a second
run at 200, 250. -/
theorem c2_burst_witness :
    (within_run_lt 100 10 [20, 30] = true ∧
      within_run_lt 100 200 [250] = true ∧
      (100 : Int) < 200 - ([20, 30] : List Int).getLastD 10) ∧
    (process_events (init_core burst_settings) [10]).count
      = burst_settings.count + 1 ∧
    (process_events (init_core burst_settings)
      ((10 :: [20, 30]) ++ (200 :: [250]))).count
        = burst_settings.count + 2 :=
  ⟨⟨by decide, by decide, by decide⟩,
    (c2_burst_amended 100 burst_settings rfl rfl (by decide) rfl rfl
      10 [20, 30] 200 [250] (by decide) (by decide) (by decide) (by decide)).1,
    (c2_burst_amended 100 burst_settings rfl rfl (by decide) rfl rfl
      10 [20, 30] 200 [250] (by decide) (by decide) (by decide) (by decide)).2.2.2.1⟩

/-- C1 counterexample: MultiBurst with `amount = 3`, `T = 500`; four
single-event bursts whose idle gaps are each exactly `T` (so "≥ T" as the
claim demands). The code closes a sequence only on gaps strictly greater
than `T`, so no burst is ever credited and the count stays 0 instead of
advancing to 1 on the fourth burst's first event. -/
theorem c1_counterexample :
    ((500 : Int) ≤ 600 - 100 ∧ (500 : Int) ≤ 1100 - 600 ∧
      (500 : Int) ≤ 1600 - 1100) ∧
    (process_events (init_core mb3_settings) [100, 600, 1100, 1600]).count = 0 ∧
    ¬ ((process_events (init_core mb3_settings) [100, 600, 1100, 1600]).count = 1) := by
  decide

/-- C1 (amended): In MultiBurst mode, unpaused, the count advances by
exactly 1 precisely on the events where, after the idle-closing step,
`sequence_presses = 1` and `burst_count_tracker ≥ amount`, resetting the
tracker to 0 on each advance; with `amount = 3`, three bursts each closed by
an idle gap strictly greater than `T` (not merely `≥ T`) followed by a
fourth burst advance the count exactly once, on the first event of the
fourth burst. -/
theorem c1_multiburst_amended (T : Int) (s : Settings)
    (hr : s.is_rapid_mode = false) (hT : s.burst_idle_ms = T) (h0 : 0 < T)
    (hA3 : s.amount = 3) (hp : s.is_paused = false)
    (h1 : Int) (tail1 : List Int) (h2 : Int) (tail2 : List Int)
    (h3 : Int) (tail3 : List Int) (h4 : Int) (tail4 : List Int)
    (hpos1 : 0 < h1) (hw1 : within_run T h1 tail1 = true)
    (hg2 : T < h2 - tail1.getLastD h1) (hpos2 : 0 < h2)
    (hw2 : within_run T h2 tail2 = true)
    (hg3 : T < h3 - tail2.getLastD h2) (hpos3 : 0 < h3)
    (hw3 : within_run T h3 tail3 = true)
    (hg4 : T < h4 - tail3.getLastD h3) (hpos4 : 0 < h4)
    (hw4 : within_run T h4 tail4 = true) :
    (process_events (init_core s)
      ((h1 :: tail1) ++ ((h2 :: tail2) ++ (h3 :: tail3)))).count = s.count ∧
    (process_events (init_core s)
      (((h1 :: tail1) ++ ((h2 :: tail2) ++ (h3 :: tail3))) ++ [h4])).count
        = s.count + 1 ∧
    (process_events (init_core s)
      (((h1 :: tail1) ++ ((h2 :: tail2) ++ (h3 :: tail3))) ++ [h4])).burst_count_tracker
        = 0 ∧
    (process_events (init_core s)
      ((h1 :: tail1) ++ ((h2 :: tail2) ++ ((h3 :: tail3) ++ (h4 :: tail4))))).count
        = s.count + 1 ∧
    (∀ (dd : CounterCore) (t : Int),
      dd.settings.is_rapid_mode = false → 0 < dd.settings.burst_idle_ms →
      1 < dd.settings.amount → dd.settings.is_paused = false →
      0 ≤ dd.sequence_presses →
      (((handle_input t dd).1.count = dd.count + 1 ∨
        (handle_input t dd).1.count = dd.count) ∧
       ((handle_input t dd).1.count = dd.count + 1 ↔
        ((sequence_step t dd).1.sequence_presses = 1 ∧
          dd.settings.amount ≤ (sequence_step t dd).1.burst_count_tracker)) ∧
       ((sequence_step t dd).1.sequence_presses = 1 ∧
          dd.settings.amount ≤ (sequence_step t dd).1.burst_count_tracker →
        (handle_input t dd).1.burst_count_tracker = 0))) := by
  have hini : init_core s = (⟨s, s.count, 0, 0, 0, 0⟩ : CounterCore) := rfl
  have e1 : (handle_input h1 (⟨s, s.count, 0, 0, 0, 0⟩ : CounterCore)).1
      = (⟨s, s.count, 1, h1, 0, 0⟩ : CounterCore) := by
    rw [first_event_multiburst_miss h1 _ hr (by dsimp only; omega)
      (by dsimp only; omega) rfl (by dsimp only; omega)]
  have hrun1 : process_events (⟨s, s.count, 0, 0, 0, 0⟩ : CounterCore) (h1 :: tail1)
      = (⟨s, s.count, 1 + (tail1.length : Int), tail1.getLastD h1, 0, 0⟩ : CounterCore) := by
    simp only [process_events]
    rw [e1, run_within T tail1 _ hr hT h0 (le_refl 1) hw1]
  have hpl1 : 0 < tail1.getLastD h1 :=
    within_run_getLastD_pos T tail1 h1 hpos1 hw1
  have e2 : (handle_input h2 (⟨s, s.count, 1 + (tail1.length : Int), tail1.getLastD h1, 0, 0⟩ : CounterCore)).1
      = (⟨s, s.count, 1, h2, 0 + 1, 0⟩ : CounterCore) := by
    rw [multiburst_open_miss h2 _ hr (by dsimp only; omega) (by dsimp only; omega)
      (by dsimp only; omega) (by dsimp only; omega) (by dsimp only; omega)
      (by dsimp only; omega)]
  have hrun2 : process_events (⟨s, s.count, 1 + (tail1.length : Int), tail1.getLastD h1, 0, 0⟩ : CounterCore) (h2 :: tail2)
      = (⟨s, s.count, 1 + (tail2.length : Int), tail2.getLastD h2, 0 + 1, 0⟩ : CounterCore) := by
    simp only [process_events]
    rw [e2, run_within T tail2 _ hr hT h0 (le_refl 1) hw2]
  have hpl2 : 0 < tail2.getLastD h2 :=
    within_run_getLastD_pos T tail2 h2 hpos2 hw2
  have e3 : (handle_input h3 (⟨s, s.count, 1 + (tail2.length : Int), tail2.getLastD h2, 0 + 1, 0⟩ : CounterCore)).1
      = (⟨s, s.count, 1, h3, 0 + 1 + 1, 0⟩ : CounterCore) := by
    rw [multiburst_open_miss h3 _ hr (by dsimp only; omega) (by dsimp only; omega)
      (by dsimp only; omega) (by dsimp only; omega) (by dsimp only; omega)
      (by dsimp only; omega)]
  have hrun3 : process_events (⟨s, s.count, 1 + (tail2.length : Int), tail2.getLastD h2, 0 + 1, 0⟩ : CounterCore) (h3 :: tail3)
      = (⟨s, s.count, 1 + (tail3.length : Int), tail3.getLastD h3, 0 + 1 + 1, 0⟩ : CounterCore) := by
    simp only [process_events]
    rw [e3, run_within T tail3 _ hr hT h0 (le_refl 1) hw3]
  have hpl3 : 0 < tail3.getLastD h3 :=
    within_run_getLastD_pos T tail3 h3 hpos3 hw3
  have e4 : (handle_input h4 (⟨s, s.count, 1 + (tail3.length : Int), tail3.getLastD h3, 0 + 1 + 1, 0⟩ : CounterCore)).1
      = (⟨s, s.count + 1, 1, h4, 0, 0⟩ : CounterCore) := by
    rw [multiburst_open_hit h4 _ hr (by dsimp only; omega) (by dsimp only; omega)
      hp (by dsimp only; omega) (by dsimp only; omega) (by dsimp only; omega)
      (by dsimp only; omega)]
  have hrun4 : process_events (⟨s, s.count, 1 + (tail3.length : Int), tail3.getLastD h3, 0 + 1 + 1, 0⟩ : CounterCore) (h4 :: tail4)
      = (⟨s, s.count + 1, 1 + (tail4.length : Int), tail4.getLastD h4, 0, 0⟩ : CounterCore) := by
    simp only [process_events]
    rw [e4, run_within T tail4 _ hr hT h0 (le_refl 1) hw4]
  refine ⟨?_, ?_, ?_, ?_, ?_⟩
  · rw [hini, process_events_append, hrun1, process_events_append, hrun2, hrun3]
  · rw [hini, process_events_append, process_events_append, hrun1,
      process_events_append, hrun2, hrun3]
    simp only [process_events]
    rw [e4]
  · rw [hini, process_events_append, process_events_append, hrun1,
      process_events_append, hrun2, hrun3]
    simp only [process_events]
    rw [e4]
  · rw [hini, process_events_append, hrun1, process_events_append, hrun2,
      process_events_append, hrun3, hrun4]
  · intro dd t ha hb hc hd he
    exact multiburst_step_iff t dd ha hb hc hd he

/-- Witness for C1 (amended): `T = 500`, bursts at (100, 200), (800),
(1400), and (2000, 2100). -/
theorem c1_multiburst_witness :
    (within_run 500 100 [200] = true ∧ within_run 500 2000 [2100] = true ∧
      (500 : Int) < 800 - ([200] : List Int).getLastD 100 ∧
      (500 : Int) < 1400 - ([] : List Int).getLastD 800 ∧
      (500 : Int) < 2000 - ([] : List Int).getLastD 1400) ∧
    (process_events (init_core mb3_settings)
      ((100 :: [200]) ++ ((800 :: ([] : List Int)) ++ (1400 :: ([] : List Int))))).count
        = mb3_settings.count ∧
    (process_events (init_core mb3_settings)
      (((100 :: [200]) ++ ((800 :: ([] : List Int)) ++ (1400 :: ([] : List Int)))) ++ [2000])).count
        = mb3_settings.count + 1 ∧
    (process_events (init_core mb3_settings)
      (((100 :: [200]) ++ ((800 :: ([] : List Int)) ++ (1400 :: ([] : List Int)))) ++ [2000])).burst_count_tracker
        = 0 :=
  ⟨⟨by decide, by decide, by decide, by decide, by decide⟩,
    (c1_multiburst_amended 500 mb3_settings rfl rfl (by decide) rfl rfl
      100 [200] 800 [] 1400 [] 2000 [2100] (by decide) (by decide)
      (by decide) (by decide) (by decide) (by decide) (by decide) (by decide)
      (by decide) (by decide) (by decide)).1,
    (c1_multiburst_amended 500 mb3_settings rfl rfl (by decide) rfl rfl
      100 [200] 800 [] 1400 [] 2000 [2100] (by decide) (by decide)
      (by decide) (by decide) (by decide) (by decide) (by decide) (by decide)
      (by decide) (by decide) (by decide)).2.1,
    (c1_multiburst_amended 500 mb3_settings rfl rfl (by decide) rfl rfl
      100 [200] 800 [] 1400 [] 2000 [2100] (by decide) (by decide)
      (by decide) (by decide) (by decide) (by decide) (by decide) (by decide)
      (by decide) (by decide) (by decide)).2.2.1⟩

end AuraTrac
